import Mathlib

/-!
Shallow embedding of `rllib/env/multi_agent_env.py`.

The file models the `MultiEnv` adapter produced by `make_multi_agent`:
its constructor (`MultiEnv.init`), `reset` and `step`, together with the
reward re-keying of the agent-grouping transform (whose own source file is
not part of this snapshot and is therefore modelled from the spec).

Python dictionaries are modelled as association lists in insertion order
with unique keys; the replica list `self.agents` is a `List`; the mutable
set `self.dones` is a `Finset Nat`.  A raised exception is an
`Except.error`; for `step`, which in Python can mutate `self` before the
exception propagates, the (possibly mutated) state is returned alongside
the `Except` result.  Replica environments are opaque capabilities: a
state type together with pure `reset` and `step` functions.
-/

namespace RayMultiAgent

/-- Python dictionary lookup `d[k]` on an association list: the value of
the first entry whose key equals `k` (keys are unique in a dict, so at
most one entry matches). -/
def dictGet [DecidableEq κ] (k : κ) : List (κ × β) → Option β
  | [] => none
  | p :: rest => if p.1 = k then some p.2 else dictGet k rest

/-- A configuration value: `num_agents` must be an integer, every other
entry is opaque (type `V`). -/
inductive CVal (V : Type) where
  | int : Int → CVal V
  | other : V → CVal V
deriving DecidableEq

/-- The configuration mapping passed to the adapter constructor. -/
abbrev Config (V : Type) := List (String × CVal V)

/-- Errors the constructor can raise: `IndexError` from `self.agents[0]`
when the replica list is empty, `TypeError` from `range(num)` when the
`num_agents` entry is not an integer. -/
inductive InitError where
  | indexError
  | typeError
deriving DecidableEq

/-- The error kind `step` can raise: `self.agents[i]` fails for an index
`i` with no corresponding replica (spec error kind `KeyMismatch`). -/
inductive StepError where
  | keyMismatch
deriving DecidableEq

/-- Keys of the done-dict returned by `step`: a replica index, or the
reserved aggregate termination key `"__all__"`. -/
inductive AgentKey where
  | idx : Nat → AgentKey
  | all : AgentKey
deriving DecidableEq

/-- The state of a `MultiEnv` adapter: `self.agents`, `self.dones`,
`self.observation_space` and `self.action_space` (the spaces are read
from replica 0 at construction and never change afterwards).  `σ` is the
state type of one replica, `P` the opaque type of a space descriptor. -/
structure MultiEnvState (σ P : Type) where
  agents : List σ
  dones : Finset Nat
  observation_space : P
  action_space : P
deriving DecidableEq

/-- The source argument of `make_multi_agent`: a registry name or a
factory callable taking the configuration. -/
inductive EnvSource (σ V : Type) where
  | name : String → EnvSource σ V
  | creator : (Config V → σ) → EnvSource σ V

/-- `config.pop("num_agents", 1)`: reads the `num_agents` entry
(defaulting to `1` when absent) and removes it from the mapping; a
non-integer value makes the subsequent `range(num)` raise `TypeError`. -/
def popNumAgents (cfg : Config V) : Except InitError (Int × Config V) :=
  match cfg.lookup "num_agents" with
  | none => Except.ok (1, cfg)
  | some (CVal.int n) => Except.ok (n, cfg.filter (fun p => p.1 != "num_agents"))
  | some (CVal.other _) => Except.error InitError.typeError

/-- `MultiEnv.__init__`: `config = config or {}`, pop `num_agents`, build
`num` replicas — via `gym.make(name)` for a string source (the remaining
configuration is not an argument of that call) or via
`env_name_or_creator(config)` for a callable source — then read the two
spaces from `self.agents[0]`, which raises `IndexError` when the replica
list is empty.  `gymMake` is the external registry capability
`resolve(name)`; `obsSp`/`actSp` read the space attributes of a replica. -/
def MultiEnv.init (gymMake : String → σ) (obsSp actSp : σ → P)
    (src : EnvSource σ V) (config : Option (Config V)) :
    Except InitError (MultiEnvState σ P) :=
  let cfg := config.getD []
  match popNumAgents cfg with
  | Except.error e => Except.error e
  | Except.ok nr =>
      let agents : List σ :=
        match src with
        | EnvSource.name n => List.replicate nr.1.toNat (gymMake n)
        | EnvSource.creator f => List.replicate nr.1.toNat (f nr.2)
      match agents with
      | [] => Except.error InitError.indexError
      | a0 :: rest =>
          Except.ok { agents := a0 :: rest, dones := ∅,
                      observation_space := obsSp a0, action_space := actSp a0 }

/-- The replica-construction call evaluated for one replica inside
`MultiEnv.__init__`: `gym.make(name)` (whose argument list holds only the
name) or `env_name_or_creator(config)` (whose argument is the remaining
configuration after the `num_agents` pop). -/
inductive ReplicaCall (V : Type) where
  | gymMakeCall : String → ReplicaCall V
  | creatorCall : Config V → ReplicaCall V
deriving DecidableEq

/-- The configuration argument carried by a replica-construction call:
`gym.make(name)` receives none, the factory callable receives the
remaining configuration. -/
def ReplicaCall.configArg : ReplicaCall V → Option (Config V)
  | ReplicaCall.gymMakeCall _ => none
  | ReplicaCall.creatorCall c => some c

/-- The list of replica-construction calls `MultiEnv.__init__` evaluates,
in order: one per loop iteration of the comprehension that builds
`self.agents`. -/
def MultiEnv.initCalls (src : EnvSource σ V) (config : Option (Config V)) :
    Except InitError (List (ReplicaCall V)) :=
  let cfg := config.getD []
  match popNumAgents cfg with
  | Except.error e => Except.error e
  | Except.ok nr =>
      Except.ok (match src with
        | EnvSource.name n => List.replicate nr.1.toNat (ReplicaCall.gymMakeCall n)
        | EnvSource.creator _ => List.replicate nr.1.toNat (ReplicaCall.creatorCall nr.2))

/-- `MultiEnv.reset`: `self.dones = set()`, then
`{i: a.reset() for i, a in enumerate(self.agents)}` — every replica is
reset and the observation dict is keyed `0..count-1` in order.  `sReset`
is the single-agent capability `reset()`, returning the new replica state
and the observation. -/
def MultiEnv.reset (sReset : σ → σ × O) (s : MultiEnvState σ P) :
    MultiEnvState σ P × List (Nat × O) :=
  ({ s with agents := s.agents.map (fun a => (sReset a).1), dones := ∅ },
   (s.agents.map (fun a => (sReset a).2)).enum)

/-- The loop of `MultiEnv.step` over `action_dict.items()`: for each
`(i, action)`, `self.agents[i].step(action)` (an out-of-range `i` raises,
leaving the state mutated so far), the four results are appended to the
output dicts under key `i`, and `i` is added to `self.dones` when the
done flag is true.  `sStep` is the single-agent capability
`step(action)`, returning the new replica state, the observation, the
reward, the done flag and the info record. -/
def stepGo (sStep : σ → A → σ × O × R × Bool × I) :
    MultiEnvState σ P → List (Nat × A) →
    MultiEnvState σ P ×
      Except StepError (List (Nat × O) × List (Nat × R) × List (Nat × Bool) × List (Nat × I))
  | s, [] => (s, Except.ok ([], [], [], []))
  | s, (i, a) :: rest =>
      match s.agents[i]? with
      | none => (s, Except.error StepError.keyMismatch)
      | some ag =>
          let r := sStep ag a
          let s1 : MultiEnvState σ P :=
            { s with agents := s.agents.set i r.1,
                     dones := if r.2.2.2.1 then insert i s.dones else s.dones }
          let next := stepGo sStep s1 rest
          (next.1, next.2.map (fun out =>
            ((i, r.2.1) :: out.1, (i, r.2.2.1) :: out.2.1,
             (i, r.2.2.2.1) :: out.2.2.1, (i, r.2.2.2.2) :: out.2.2.2)))

/-- `MultiEnv.step`: run the loop, then set
`done["__all__"] = len(self.dones) == len(self.agents)` on the final
state and return the four dicts.  The done-dict mixes integer keys with
the reserved string key, hence its `AgentKey` key type. -/
def MultiEnv.step (sStep : σ → A → σ × O × R × Bool × I)
    (s : MultiEnvState σ P) (action_dict : List (Nat × A)) :
    MultiEnvState σ P ×
      Except StepError
        (List (Nat × O) × List (Nat × R) × List (AgentKey × Bool) × List (Nat × I)) :=
  let res := stepGo sStep s action_dict
  (res.1, res.2.map (fun out =>
    (out.1, out.2.1,
     out.2.2.1.map (fun p => (AgentKey.idx p.1, p.2))
       ++ [(AgentKey.all, decide (res.1.dones.card = res.1.agents.length))],
     out.2.2.2)))

/-- Modelled from the spec: `with_agent_groups` delegates to
`GroupAgentsWrapper` (file `rllib/env/wrappers/group_agents_wrapper.py`,
absent from this snapshot), whose `step` collapses every group all of
whose members are present in the underlying result.  This predicate is
that presence test for one group. -/
def allMembersPresent (rew : List (String × Int)) (members : List String) : Bool :=
  members.all (fun m => (dictGet m rew).isSome)

/-- Modelled from the spec: the pre-aggregation per-member reward mapping
of a group, in GroupSpec member order — the mapping preserved under the
`"individual_rewards"` sub-key of the group info record. -/
def individualRewards (rew : List (String × Int)) (members : List String) :
    List (String × Int) :=
  members.map (fun m => (m, (dictGet m rew).getD 0))

/-- Modelled from the spec: the reward dict returned by the grouping
transform.  Every fully-present group contributes one entry keyed by the
group id holding the sum of the member rewards; entries of agents that
belong to no fully-present group pass through unchanged. -/
def groupRewardDict (groups : List (String × List String))
    (rew : List (String × Int)) : List (String × Int) :=
  (groups.filter (fun g => allMembersPresent rew g.2)).map
      (fun g => (g.1, ((individualRewards rew g.2).map Prod.snd).sum))
    ++ rew.filter
        (fun p => !(groups.any (fun g => g.2.contains p.1 && allMembersPresent rew g.2)))

/-- Modelled from the spec: the `"individual_rewards"` entries of the
info records returned by the grouping transform — for every
fully-present group, the exact pre-sum per-member reward mapping. -/
def groupInfoIndividualRewards (groups : List (String × List String))
    (rew : List (String × Int)) : List (String × List (String × Int)) :=
  (groups.filter (fun g => allMembersPresent rew g.2)).map
    (fun g => (g.1, individualRewards rew g.2))

/-! Concrete single-agent environment used to instantiate the adapter in
witness theorems: the replica state is a step counter, every step is
immediately terminal. -/

/-- A toy single-agent `step`: state counts steps, observation echoes the
new count, reward `1`, done immediately, info `0`. -/
def toyStep (n : Nat) (a : Nat) : Nat × Nat × Int × Bool × Nat :=
  (n + a, n + a, 1, true, 0)

/-- A toy single-agent `reset`: back to count `0`, observation `7`. -/
def toyReset (_n : Nat) : Nat × Nat :=
  (0, 7)

/-- A three-replica adapter state over the toy environment. -/
def toyState3 : MultiEnvState Nat Nat :=
  { agents := [0, 0, 0], dones := ∅, observation_space := 0, action_space := 0 }

/-! Helper lemmas about the `step` loop. -/

variable {σ P O A R I V : Type}

theorem stepGo_agents_length (sStep : σ → A → σ × O × R × Bool × I) :
    ∀ (ad : List (Nat × A)) (s : MultiEnvState σ P),
      (stepGo sStep s ad).1.agents.length = s.agents.length := by
  intro ad
  induction ad with
  | nil => intro s; rfl
  | cons hd tl ih =>
      intro s
      rcases hd with ⟨i, a⟩
      simp only [stepGo]
      cases h : s.agents[i]? with
      | none => rfl
      | some ag => simp [ih, List.length_set]

theorem stepGo_dones_subset (sStep : σ → A → σ × O × R × Bool × I) :
    ∀ (ad : List (Nat × A)) (s : MultiEnvState σ P),
      s.dones ⊆ (stepGo sStep s ad).1.dones := by
  intro ad
  induction ad with
  | nil => intro s; exact Finset.Subset.refl _
  | cons hd tl ih =>
      intro s
      rcases hd with ⟨i, a⟩
      simp only [stepGo]
      cases h : s.agents[i]? with
      | none => exact Finset.Subset.refl _
      | some ag =>
          refine Finset.Subset.trans ?_
            (ih { s with agents := s.agents.set i (sStep ag a).1,
                         dones := if (sStep ag a).2.2.2.1 = true then
                                    insert i s.dones else s.dones })
          by_cases hdn : (sStep ag a).2.2.2.1 = true
          · simp [hdn, Finset.subset_insert]
          · simp [hdn]

theorem stepGo_frame (sStep : σ → A → σ × O × R × Bool × I) :
    ∀ (ad : List (Nat × A)) (s : MultiEnvState σ P) (j : Nat),
      j ∉ ad.map Prod.fst → (stepGo sStep s ad).1.agents[j]? = s.agents[j]? := by
  intro ad
  induction ad with
  | nil => intro s j _; rfl
  | cons hd tl ih =>
      intro s j hj
      rcases hd with ⟨i, a⟩
      simp only [List.map_cons, List.mem_cons, not_or] at hj
      simp only [stepGo]
      cases h : s.agents[i]? with
      | none => rfl
      | some ag =>
          rw [ih { s with agents := s.agents.set i (sStep ag a).1,
                          dones := if (sStep ag a).2.2.2.1 = true then
                                     insert i s.dones else s.dones } j hj.2]
          exact List.getElem?_set_ne (fun he => hj.1 he.symm)

theorem stepGo_ok_of_valid (sStep : σ → A → σ × O × R × Bool × I) :
    ∀ (ad : List (Nat × A)) (s : MultiEnvState σ P),
      (∀ p ∈ ad, p.1 < s.agents.length) →
      ∃ os rs ds ifs,
        (stepGo sStep s ad).2 = Except.ok (os, rs, ds, ifs) ∧
        os.map Prod.fst = ad.map Prod.fst ∧
        rs.map Prod.fst = ad.map Prod.fst ∧
        ds.map Prod.fst = ad.map Prod.fst ∧
        ifs.map Prod.fst = ad.map Prod.fst := by
  intro ad
  induction ad with
  | nil => intro s _; exact ⟨[], [], [], [], rfl, rfl, rfl, rfl, rfl⟩
  | cons hd tl ih =>
      intro s hvalid
      rcases hd with ⟨i, a⟩
      have hi : i < s.agents.length := hvalid (i, a) (List.mem_cons_self _ _)
      simp only [stepGo]
      cases h : s.agents[i]? with
      | none =>
          rw [List.getElem?_eq_none_iff] at h
          omega
      | some ag =>
          have htl : ∀ p ∈ tl,
              p.1 < (s.agents.set i (sStep ag a).1).length := by
            intro p hp
            rw [List.length_set]
            exact hvalid p (List.mem_cons_of_mem _ hp)
          obtain ⟨os, rs, ds, ifs, hok, ho, hr, hdn, hin⟩ :=
            ih { s with agents := s.agents.set i (sStep ag a).1,
                        dones := if (sStep ag a).2.2.2.1 = true then
                                   insert i s.dones else s.dones } htl
          refine ⟨(i, (sStep ag a).2.1) :: os, (i, (sStep ag a).2.2.1) :: rs,
                  (i, (sStep ag a).2.2.2.1) :: ds, (i, (sStep ag a).2.2.2.2) :: ifs, ?_, ?_, ?_, ?_, ?_⟩
          · simp only [hok, Except.map]
          · simp [ho]
          · simp [hr]
          · simp [hdn]
          · simp [hin]

theorem stepGo_error_of_invalid (sStep : σ → A → σ × O × R × Bool × I) :
    ∀ (ad : List (Nat × A)) (s : MultiEnvState σ P),
      (∃ p ∈ ad, s.agents.length ≤ p.1) →
      (stepGo sStep s ad).2 = Except.error StepError.keyMismatch := by
  intro ad
  induction ad with
  | nil => intro s hex; simp at hex
  | cons hd tl ih =>
      intro s hex
      rcases hd with ⟨i, a⟩
      simp only [stepGo]
      rcases Nat.lt_or_ge i s.agents.length with hi | hi
      · cases h : s.agents[i]? with
        | none => rfl
        | some ag =>
            have hex' : ∃ p ∈ tl, (s.agents.set i (sStep ag a).1).length ≤ p.1 := by
              rcases hex with ⟨p, hp, hlen⟩
              rcases List.mem_cons.mp hp with heq | hp'
              · rw [heq] at hlen
                omega
              · exact ⟨p, hp', by rw [List.length_set]; exact hlen⟩
            have herr := ih { s with agents := s.agents.set i (sStep ag a).1,
                                     dones := if (sStep ag a).2.2.2.1 = true then
                                                insert i s.dones else s.dones } hex'
            simp only [herr, Except.map]
      · have h : s.agents[i]? = none := List.getElem?_eq_none_iff.mpr hi
        simp only [h]

theorem dictGet_all_append (l : List (Nat × Bool)) (b : Bool) :
    dictGet AgentKey.all
      (l.map (fun p => (AgentKey.idx p.1, p.2)) ++ [(AgentKey.all, b)]) = some b := by
  induction l with
  | nil => simp [dictGet]
  | cons hd tl ih => simpa [dictGet] using ih

theorem dictGet_append_of_some [DecidableEq κ] (k : κ) {A B : List (κ × β)} {v : β}
    (h : dictGet k A = some v) : dictGet k (A ++ B) = some v := by
  induction A with
  | nil => simp [dictGet] at h
  | cons hd tl ih =>
      by_cases hk : hd.1 = k
      · simp only [dictGet, if_pos hk] at h ⊢
        exact h
      · simp only [dictGet, if_neg hk] at h ⊢
        exact ih h

/-- For every successful `step` call, the returned done-dict maps the
reserved key to `len(self.dones) == len(self.agents)` evaluated on the
post-call state (whose replica count equals the pre-call count). -/
theorem step_ok_done_dict (sStep : σ → A → σ × O × R × Bool × I)
    (s s' : MultiEnvState σ P) (ad : List (Nat × A))
    (os : List (Nat × O)) (rs : List (Nat × R)) (ds : List (AgentKey × Bool))
    (ifs : List (Nat × I))
    (h : MultiEnv.step sStep s ad = (s', Except.ok (os, rs, ds, ifs))) :
    s'.agents.length = s.agents.length ∧
    dictGet AgentKey.all ds = some (decide (s'.dones.card = s.agents.length)) := by
  have hlen := stepGo_agents_length sStep ad s
  simp only [MultiEnv.step, Prod.mk.injEq] at h
  obtain ⟨hs', hout⟩ := h
  cases hres : (stepGo sStep s ad).2 with
  | error e => rw [hres] at hout; simp [Except.map] at hout
  | ok out =>
      rw [hres] at hout
      simp only [Except.map, Except.ok.injEq, Prod.mk.injEq] at hout
      obtain ⟨-, -, hds, -⟩ := hout
      have h2 : s'.agents.length = s.agents.length := by rw [← hs']; exact hlen
      refine ⟨h2, ?_⟩
      rw [← hds, dictGet_all_append, hs', h2]

/-- C1: for every adapter produced by `make_multi_agent` with `count`
replicas, every (successful) call to `step` returns a done-dict whose
`"__all__"` entry is true if and only if the adapter DoneSet — the set of
replica indices that have reported done since the last reset, here the
`dones` field of the post-call state — has size equal to `count`. -/
theorem step_all_true_iff_doneset_full (sStep : σ → A → σ × O × R × Bool × I)
    (s s' : MultiEnvState σ P) (ad : List (Nat × A))
    (os : List (Nat × O)) (rs : List (Nat × R)) (ds : List (AgentKey × Bool))
    (ifs : List (Nat × I))
    (h : MultiEnv.step sStep s ad = (s', Except.ok (os, rs, ds, ifs))) :
    (dictGet AgentKey.all ds = some true ↔ s'.dones.card = s.agents.length) := by
  obtain ⟨-, hd⟩ := step_ok_done_dict sStep s s' ad os rs ds ifs h
  rw [hd]
  simp

/-- C2: calling `step` with an action keyed by an index with no
corresponding replica raises `KeyMismatch` (Python: `self.agents[i]`
raises) and no result tuple is returned. -/
theorem step_invalid_index_raises (sStep : σ → A → σ × O × R × Bool × I)
    (s : MultiEnvState σ P) (ad : List (Nat × A)) (p : Nat × A)
    (hp : p ∈ ad) (hbad : s.agents.length ≤ p.1) :
    (MultiEnv.step sStep s ad).2 = Except.error StepError.keyMismatch := by
  have herr := stepGo_error_of_invalid sStep ad s ⟨p, hp, hbad⟩
  simp only [MultiEnv.step, herr, Except.map]

/-- C3: when every key of `action_dict` is a valid replica index, `step`
succeeds; the observation, reward and info dicts carry exactly the keys
of `action_dict` (in order), the done-dict carries those keys plus the
trailing `"__all__"` entry, and every replica whose index is absent from
`action_dict` keeps its state unchanged. -/
theorem step_exact_keys_and_frame (sStep : σ → A → σ × O × R × Bool × I)
    (s : MultiEnvState σ P) (ad : List (Nat × A))
    (hvalid : ∀ p ∈ ad, p.1 < s.agents.length) :
    ∃ s' os rs ds ifs,
      MultiEnv.step sStep s ad = (s', Except.ok (os, rs, ds, ifs)) ∧
      os.map Prod.fst = ad.map Prod.fst ∧
      rs.map Prod.fst = ad.map Prod.fst ∧
      ifs.map Prod.fst = ad.map Prod.fst ∧
      ds.map Prod.fst = (ad.map Prod.fst).map AgentKey.idx ++ [AgentKey.all] ∧
      ∀ j, j ∉ ad.map Prod.fst → s'.agents[j]? = s.agents[j]? := by
  obtain ⟨os0, rs0, ds0, ifs0, hok, ho, hr, hdn, hin⟩ := stepGo_ok_of_valid sStep ad s hvalid
  refine ⟨(stepGo sStep s ad).1, os0, rs0,
    ds0.map (fun p => (AgentKey.idx p.1, p.2)) ++
      [(AgentKey.all,
        decide ((stepGo sStep s ad).1.dones.card = (stepGo sStep s ad).1.agents.length))],
    ifs0, ?_, ho, hr, hin, ?_, ?_⟩
  · simp only [MultiEnv.step, hok, Except.map]
  · simp [List.map_map, Function.comp, ← hdn]
  · intro j hj
    exact stepGo_frame sStep ad s j hj

/-- C4: `reset()` clears the DoneSet, resets every replica, and returns
the observation dict keyed exactly by `0..count-1` in order, each index
mapped to the reset observation of the corresponding replica. -/
theorem reset_spec (sReset : σ → σ × O) (s : MultiEnvState σ P) :
    (MultiEnv.reset sReset s).1.dones = ∅ ∧
    (MultiEnv.reset sReset s).1.agents = s.agents.map (fun a => (sReset a).1) ∧
    (MultiEnv.reset sReset s).2.map Prod.fst = List.range s.agents.length ∧
    (MultiEnv.reset sReset s).2.map Prod.snd = s.agents.map (fun a => (sReset a).2) := by
  refine ⟨rfl, rfl, ?_, ?_⟩
  · simp [MultiEnv.reset, List.enum_map_fst]
  · simp [MultiEnv.reset, List.enum_map_snd]

/-- C5: within an episode the DoneSet grows monotonically — `step` never
removes an index from `dones`, whatever the action dict (valid or not),
and only `reset()` empties it. -/
theorem doneset_monotone (sStep : σ → A → σ × O × R × Bool × I)
    (sReset : σ → σ × O) (s : MultiEnvState σ P) (ad : List (Nat × A)) :
    s.dones ⊆ (MultiEnv.step sStep s ad).1.dones ∧
    (MultiEnv.reset sReset s).1.dones = ∅ :=
  ⟨stepGo_dones_subset sStep ad s, rfl⟩

/-- C6: every done-dict returned by a (successful) `step` call of the
adapter contains the reserved aggregate termination key `"__all__"`. -/
theorem step_done_dict_has_all_key (sStep : σ → A → σ × O × R × Bool × I)
    (s s' : MultiEnvState σ P) (ad : List (Nat × A))
    (os : List (Nat × O)) (rs : List (Nat × R)) (ds : List (AgentKey × Bool))
    (ifs : List (Nat × I))
    (h : MultiEnv.step sStep s ad = (s', Except.ok (os, rs, ds, ifs))) :
    (dictGet AgentKey.all ds).isSome = true := by
  obtain ⟨-, hd⟩ := step_ok_done_dict sStep s s' ad os rs ds ifs h
  rw [hd]
  rfl

/-- C9: two consecutive `reset()` calls with no intervening `step` leave
the DoneSet empty after each call — `reset` is idempotent on the
episode-scoped state of the adapter. -/
theorem reset_idempotent_doneset (sReset : σ → σ × O) (s : MultiEnvState σ P) :
    (MultiEnv.reset sReset s).1.dones = ∅ ∧
    (MultiEnv.reset sReset (MultiEnv.reset sReset s).1).1.dones = ∅ :=
  ⟨rfl, rfl⟩

/-- C7 counterexample: for the registry-name source the remaining
configuration is NOT forwarded to replica construction.  On a concrete
configuration whose remainder after the `num_agents` pop is the nonempty
mapping `[("seed", 7)]`, the single replica-construction call the
constructor evaluates is `gym.make("CartPole-v0")`, which carries no
configuration argument at all — refuting the claim that the remainder is
forwarded verbatim to each replica construction for both sources. -/
theorem init_name_source_call_has_no_config :
    MultiEnv.initCalls (EnvSource.name "CartPole-v0" : EnvSource Nat Nat)
        (some [("num_agents", CVal.int 1), ("seed", CVal.other 7)])
      = Except.ok [ReplicaCall.gymMakeCall "CartPole-v0"] ∧
    (ReplicaCall.gymMakeCall "CartPole-v0" : ReplicaCall Nat).configArg = none :=
  ⟨rfl, rfl⟩

/-- C7 amended: the constructor reads the integer `num_agents` entry
(default 1 when absent), removes it from the mapping, and forwards the
remainder verbatim to each replica-construction call when the source is
a factory callable; when the source is a registry name, every
replica-construction call carries only the name and the remainder is not
forwarded. -/
theorem init_config_forwarding (f : Config V → σ) (gymName : String)
    (cfg : Config V) (n : Int) (rest : Config V)
    (hpop : popNumAgents cfg = Except.ok (n, rest)) :
    MultiEnv.initCalls (EnvSource.creator f) (some cfg)
        = Except.ok (List.replicate n.toNat (ReplicaCall.creatorCall rest)) ∧
    MultiEnv.initCalls (EnvSource.name gymName : EnvSource σ V) (some cfg)
        = Except.ok (List.replicate n.toNat (ReplicaCall.gymMakeCall gymName)) ∧
    ((cfg.lookup "num_agents" = some (CVal.int n) ∧
        rest = cfg.filter (fun p => p.1 != "num_agents")) ∨
      (cfg.lookup "num_agents" = none ∧ n = 1 ∧ rest = cfg)) := by
  refine ⟨?_, ?_, ?_⟩
  · simp [MultiEnv.initCalls, hpop]
  · simp [MultiEnv.initCalls, hpop]
  · unfold popNumAgents at hpop
    cases hl : cfg.lookup "num_agents" with
    | none =>
        rw [hl] at hpop
        simp only [Except.ok.injEq, Prod.mk.injEq] at hpop
        exact Or.inr ⟨rfl, hpop.1.symm, hpop.2.symm⟩
    | some v =>
        cases v with
        | int m =>
            rw [hl] at hpop
            simp only [Except.ok.injEq, Prod.mk.injEq] at hpop
            exact Or.inl ⟨by rw [hpop.1], hpop.2.symm⟩
        | other w => rw [hl] at hpop; simp at hpop

theorem dictGet_filter_map (rew : List (String × Int)) (F : List String → β) :
    ∀ (groups : List (String × List String)) (g : String) (members : List String),
      dictGet g groups = some members → allMembersPresent rew members = true →
      dictGet g ((groups.filter (fun p => allMembersPresent rew p.2)).map
        (fun p => (p.1, F p.2))) = some (F members) := by
  intro groups
  induction groups with
  | nil => intro g members hg _; simp [dictGet] at hg
  | cons hd tl ih =>
      intro g members hg hall
      by_cases hk : hd.1 = g
      · simp only [dictGet, if_pos hk] at hg
        injection hg with hmem
        subst hmem
        simp [List.filter_cons, hall, dictGet, hk]
      · simp only [dictGet, if_neg hk] at hg
        by_cases hfil : allMembersPresent rew hd.2 = true
        · simp [List.filter_cons, hfil, dictGet, hk, ih g members hg hall]
        · simp [List.filter_cons, hfil, ih g members hg hall]

/-- C8: for every group of the grouping transform whose members are all
present in the underlying step result, the transform returns a single
reward keyed by the group id equal to the sum of the member rewards, and
the exact pre-sum per-member reward mapping is preserved under the
`"individual_rewards"` key of that group info record (definitions
modelled from the spec: the wrapper source file is not in this
snapshot). -/
theorem group_reward_sum_and_individual (groups : List (String × List String))
    (rew : List (String × Int)) (g : String) (members : List String)
    (hg : dictGet g groups = some members)
    (hall : allMembersPresent rew members = true) :
    dictGet g (groupRewardDict groups rew)
      = some (((individualRewards rew members).map Prod.snd).sum) ∧
    dictGet g (groupInfoIndividualRewards groups rew)
      = some (individualRewards rew members) := by
  constructor
  · exact dictGet_append_of_some g
      (dictGet_filter_map rew (fun ms => ((individualRewards rew ms).map Prod.snd).sum)
        groups g members hg hall)
  · exact dictGet_filter_map rew (fun ms => individualRewards rew ms)
      groups g members hg hall

/-- C10: constructing an adapter with `num_agents = 0` always fails —
the replica list is empty, so reading the observation space from
`self.agents[0]` raises `IndexError`, for either source kind. -/
theorem init_zero_replicas_raises (gymMake : String → σ) (obsSp actSp : σ → P)
    (src : EnvSource σ V) (cfg : Config V)
    (h : cfg.lookup "num_agents" = some (CVal.int 0)) :
    MultiEnv.init gymMake obsSp actSp src (some cfg)
      = Except.error InitError.indexError := by
  cases src <;> simp [MultiEnv.init, popNumAgents, h]

/-! Witnesses: each hypothesised claim theorem applied at a concrete
adapter instance, with every hypothesis discharged by evaluation. -/

/-- C1 witness: three toy replicas, all stepped and all done — the
`"__all__"` entry is `true` and the DoneSet has size 3. -/
theorem step_all_true_iff_doneset_full_witness :
    (dictGet AgentKey.all [(AgentKey.idx 0, true), (AgentKey.idx 1, true),
        (AgentKey.idx 2, true), (AgentKey.all, true)] = some true ↔
      ({ agents := [1, 1, 1], dones := insert 2 (insert 1 (insert 0 ∅)),
         observation_space := 0, action_space := 0 } : MultiEnvState Nat Nat).dones.card
        = toyState3.agents.length) :=
  step_all_true_iff_doneset_full toyStep toyState3
    { agents := [1, 1, 1], dones := insert 2 (insert 1 (insert 0 ∅)),
      observation_space := 0, action_space := 0 }
    [(0, 1), (1, 1), (2, 1)]
    [(0, 1), (1, 1), (2, 1)] [(0, 1), (1, 1), (2, 1)]
    [(AgentKey.idx 0, true), (AgentKey.idx 1, true), (AgentKey.idx 2, true),
     (AgentKey.all, true)]
    [(0, 0), (1, 0), (2, 0)] rfl

/-- C2 witness: an action for index 5 on the 3-replica adapter raises
`KeyMismatch`. -/
theorem step_invalid_index_raises_witness :
    ((5, 1) : Nat × Nat) ∈ [((5 : Nat), (1 : Nat))] ∧
    (MultiEnv.step toyStep toyState3 [(5, 1)]).2 = Except.error StepError.keyMismatch :=
  ⟨by decide,
   step_invalid_index_raises toyStep toyState3 [(5, 1)] (5, 1) (by decide) (by decide)⟩

/-- C3 witness: actions only for indices 0 and 2 of the 3-replica
adapter — result dicts keyed exactly by those indices, replica 1
untouched. -/
theorem step_exact_keys_and_frame_witness :
    ∃ s' os rs ds ifs,
      MultiEnv.step toyStep toyState3 [(0, 1), (2, 1)] = (s', Except.ok (os, rs, ds, ifs)) ∧
      os.map Prod.fst = ([(0, 1), (2, 1)] : List (Nat × Nat)).map Prod.fst ∧
      rs.map Prod.fst = ([(0, 1), (2, 1)] : List (Nat × Nat)).map Prod.fst ∧
      ifs.map Prod.fst = ([(0, 1), (2, 1)] : List (Nat × Nat)).map Prod.fst ∧
      ds.map Prod.fst
        = (([(0, 1), (2, 1)] : List (Nat × Nat)).map Prod.fst).map AgentKey.idx
            ++ [AgentKey.all] ∧
      ∀ j, j ∉ ([(0, 1), (2, 1)] : List (Nat × Nat)).map Prod.fst →
        s'.agents[j]? = toyState3.agents[j]? :=
  step_exact_keys_and_frame toyStep toyState3 [(0, 1), (2, 1)] (by decide)

/-- C6 witness: a single stepped replica — the returned done-dict
contains the `"__all__"` entry (here `false`). -/
theorem step_done_dict_has_all_key_witness :
    (dictGet AgentKey.all
      [(AgentKey.idx 0, true), (AgentKey.all, false)]).isSome = true :=
  step_done_dict_has_all_key toyStep toyState3
    { agents := [2, 0, 0], dones := insert 0 ∅,
      observation_space := 0, action_space := 0 }
    [(0, 2)] [(0, 2)] [(0, 1)]
    [(AgentKey.idx 0, true), (AgentKey.all, false)] [(0, 0)] rfl

/-- C7 witness: on `{"num_agents": 2, "seed": 5}` the pop yields count 2
and remainder `{"seed": 5}`; the factory source receives that remainder
in both replica-construction calls, the name source receives only the
name. -/
theorem init_config_forwarding_witness :
    popNumAgents [("num_agents", CVal.int 2), ("seed", CVal.other (5 : Nat))]
        = Except.ok (2, [("seed", CVal.other 5)]) ∧
    (MultiEnv.initCalls
        (EnvSource.creator (fun c => c.length) : EnvSource Nat Nat)
        (some [("num_agents", CVal.int 2), ("seed", CVal.other 5)])
        = Except.ok (List.replicate (2 : Int).toNat
            (ReplicaCall.creatorCall [("seed", CVal.other 5)])) ∧
      MultiEnv.initCalls (EnvSource.name "CartPole-v0" : EnvSource Nat Nat)
        (some [("num_agents", CVal.int 2), ("seed", CVal.other 5)])
        = Except.ok (List.replicate (2 : Int).toNat
            (ReplicaCall.gymMakeCall "CartPole-v0")) ∧
      ((([("num_agents", CVal.int 2), ("seed", CVal.other 5)] : Config Nat).lookup
            "num_agents" = some (CVal.int 2) ∧
          [("seed", CVal.other 5)]
            = ([("num_agents", CVal.int 2), ("seed", CVal.other 5)] : Config Nat).filter
                (fun p => p.1 != "num_agents")) ∨
        (([("num_agents", CVal.int 2), ("seed", CVal.other 5)] : Config Nat).lookup
            "num_agents" = none ∧ (2 : Int) = 1 ∧
          [("seed", CVal.other 5)]
            = [("num_agents", CVal.int 2), ("seed", CVal.other 5)]))) :=
  ⟨rfl,
   init_config_forwarding (fun c => c.length) "CartPole-v0"
     [("num_agents", CVal.int 2), ("seed", CVal.other 5)] 2
     [("seed", CVal.other 5)] rfl⟩

/-- C8 witness (Scenario C of the spec): `group1 = [a1, a2, a3]` over
rewards `{a1: 1, ..., a5: 5}` — reward 6 under `"group1"`, per-member
rewards preserved. -/
theorem group_reward_sum_and_individual_witness :
    dictGet "group1" [("group1", ["a1", "a2", "a3"]), ("group2", ["a4", "a5"])]
        = some ["a1", "a2", "a3"] ∧
    allMembersPresent [("a1", 1), ("a2", 2), ("a3", 3), ("a4", 4), ("a5", 5)]
        ["a1", "a2", "a3"] = true ∧
    (dictGet "group1"
        (groupRewardDict [("group1", ["a1", "a2", "a3"]), ("group2", ["a4", "a5"])]
          [("a1", 1), ("a2", 2), ("a3", 3), ("a4", 4), ("a5", 5)])
        = some (((individualRewards [("a1", 1), ("a2", 2), ("a3", 3), ("a4", 4), ("a5", 5)]
              ["a1", "a2", "a3"]).map Prod.snd).sum) ∧
      dictGet "group1"
        (groupInfoIndividualRewards [("group1", ["a1", "a2", "a3"]), ("group2", ["a4", "a5"])]
          [("a1", 1), ("a2", 2), ("a3", 3), ("a4", 4), ("a5", 5)])
        = some (individualRewards [("a1", 1), ("a2", 2), ("a3", 3), ("a4", 4), ("a5", 5)]
            ["a1", "a2", "a3"])) ∧
    ((individualRewards [("a1", 1), ("a2", 2), ("a3", 3), ("a4", 4), ("a5", 5)]
        ["a1", "a2", "a3"]).map Prod.snd).sum = 6 :=
  ⟨rfl, rfl,
   group_reward_sum_and_individual
     [("group1", ["a1", "a2", "a3"]), ("group2", ["a4", "a5"])]
     [("a1", 1), ("a2", 2), ("a3", 3), ("a4", 4), ("a5", 5)]
     "group1" ["a1", "a2", "a3"] rfl rfl,
   rfl⟩

/-- C10 witness: `num_agents = 0` makes construction raise `IndexError`
for a name source. -/
theorem init_zero_replicas_raises_witness :
    ([("num_agents", CVal.int 0)] : Config Nat).lookup "num_agents"
        = some (CVal.int 0) ∧
    MultiEnv.init (fun _ => (0 : Nat)) id id (EnvSource.name "E" : EnvSource Nat Nat)
        (some [("num_agents", CVal.int 0)]) = Except.error InitError.indexError :=
  ⟨rfl,
   init_zero_replicas_raises (fun _ => (0 : Nat)) id id (EnvSource.name "E")
     [("num_agents", CVal.int 0)] rfl⟩

end RayMultiAgent
